import Mathlib

/-!
Formal model of the Analysis Aggregation & Derived-Metrics Engine of the
isotope-analysis notebook repository.

The repository's computational core is a relational schema with triggers and
views, in two variants:

* `schema.md`: tables `analysis_sessions`, `analysis_plots`,
  `isotope_detections`, `mass_estimates`, `analysis_summary`, the
  `validate_isotope_detection` / `validate_mass_estimate` BEFORE INSERT OR
  UPDATE triggers, and the views `latest_analyses`, `mass_comparison`,
  `plot_catalog` plus the function `get_analysis_plots`.
* the platform schema (`isotope_analyses` table) with the views
  `analysis_summary` (daily rollup) and `isotope_frequency`.

Modelling conventions:

* SQL `REAL`/`NUMERIC` values are modelled as `ℚ`; `INTEGER` as `ℤ` or `ℕ`;
  `UUID` primary keys as `ℕ`; `TIMESTAMP` as `ℤ` (seconds since the epoch, in
  one canonical time zone); `TEXT` as `String`, ordered by the code points of
  `String.data` (the C collation); SQL `NULL`able columns as `Option`.
* Tables are lists of row structures; a view is a function from the store to
  the list of its rows, sorted with `List.insertionSort` according to the
  view's `ORDER BY` key.
* Division, addition and rounding on `ℚ` are implemented through
  `Rat.divInt`, which the kernel evaluates; the lemmas `qdiv_eq_div`,
  `qadd_eq_add`, `qsum_eq_sum` and `round2_eq` identify them with the
  ordinary field operations.
-/

/-- Division on `ℚ` in a kernel-evaluable form; `qdiv_eq_div` proves
`qdiv a b = a / b`. -/
def qdiv (a b : ℚ) : ℚ := Rat.divInt (a.num * (b.den : ℤ)) (b.num * (a.den : ℤ))

/-- Addition on `ℚ` in a kernel-evaluable form; `qadd_eq_add` proves
`qadd a b = a + b`. -/
def qadd (a b : ℚ) : ℚ :=
  Rat.divInt (a.num * (b.den : ℤ) + b.num * (a.den : ℤ)) ((a.den : ℤ) * (b.den : ℤ))

/-- Sum of a list of rationals, via `qadd`; `qsum_eq_sum` proves it equal to
`List.sum`. -/
def qsum (l : List ℚ) : ℚ := l.foldr qadd 0

/-- `ROUND(x, 2)` of PostgreSQL `numeric` on a nonnegative argument: round
half up to two decimal digits.  For `x = n/d` (normalised, `d > 0`) this is
`⌊(200 n + d) / (2 d)⌋ / 100`; `round2_eq` identifies it with
`⌊x * 100 + 1/2⌋ / 100`. -/
def round2 (q : ℚ) : ℚ :=
  Rat.divInt (Int.fdiv (200 * q.num + (q.den : ℤ)) (2 * (q.den : ℤ))) 100

/-- Comparison of two values through a key into a linear order; used to model
SQL `ORDER BY` clauses. -/
def keyLE {α : Type} {κ : Type} [LinearOrder κ] (f : α → κ) (a b : α) : Prop :=
  f a ≤ f b

instance {α κ : Type} [LinearOrder κ] (f : α → κ) : DecidableRel (keyLE f) :=
  fun a b => inferInstanceAs (Decidable (f a ≤ f b))

instance {α κ : Type} [LinearOrder κ] (f : α → κ) : IsTrans α (keyLE f) :=
  ⟨fun _ _ _ h h' => le_trans h h'⟩

instance {α κ : Type} [LinearOrder κ] (f : α → κ) : IsTotal α (keyLE f) :=
  ⟨fun a b => le_total (f a) (f b)⟩

/-- Row of `analysis_sessions` (schema.md, table 1).  The JSONB `metadata`
and the bookkeeping `created_at`/`updated_at` columns play no part in any
view or trigger and are omitted. -/
structure AnalysisSession where
  id : ℕ
  sample_filename : String
  background_filename : String
  confidence_threshold : ℚ
  analysis_timestamp : ℤ
deriving DecidableEq

/-- The four values admitted by the `plot_type CHECK` constraint of
`analysis_plots`. -/
inductive PlotType
  | spectrum_overview
  | mass_distribution
  | uncertainty_analysis
  | roi_plot
deriving DecidableEq

/-- The SQL `TEXT` stored for each plot type; `plot_catalog` sorts by this
text. -/
def PlotType.text : PlotType → String
  | .spectrum_overview => "spectrum_overview"
  | .mass_distribution => "mass_distribution"
  | .uncertainty_analysis => "uncertainty_analysis"
  | .roi_plot => "roi_plot"

/-- The `plot_metadata` JSONB column, restricted to the two keys the schema
reads (`->> 'parent_isotope'` and `->> 'gamma_energy_kev'`). -/
structure PlotMetadata where
  parent_isotope : Option String
  gamma_energy_kev : Option ℚ
deriving DecidableEq

/-- Row of `analysis_plots` (schema.md, table 2). -/
structure AnalysisPlot where
  id : ℕ
  analysis_id : ℕ
  plot_type : PlotType
  plot_title : String
  plot_data_base64 : String
  plot_metadata : PlotMetadata
deriving DecidableEq

/-- Row of `isotope_detections` (schema.md, table 3). -/
structure IsotopeDetection where
  id : ℕ
  analysis_id : ℕ
  parent_isotope : String
  daughter_isotope : String
  gamma_energy_kev : ℚ
  detected_counts : ℚ
  count_uncertainty : ℚ
  relative_uncertainty : Option ℚ
deriving DecidableEq

/-- Row of `mass_estimates` (schema.md, table 4). -/
structure MassEstimate where
  id : ℕ
  analysis_id : ℕ
  parent_isotope : String
  estimated_mass_g : ℚ
  mass_uncertainty_g : ℚ
  relative_mass_uncertainty : Option ℚ
deriving DecidableEq

/-- Row of `analysis_summary` (schema.md, table 5). -/
structure AnalysisSummary where
  analysis_id : ℕ
  total_estimated_mass_g : ℚ
  total_detections : ℕ
  unique_parent_isotopes : ℕ
  dominant_isotope : Option String
  mass_distribution : List (String × ℚ)
deriving DecidableEq

/-- The record store: one list per table of schema.md. -/
structure Store where
  analysis_sessions : List AnalysisSession
  analysis_plots : List AnalysisPlot
  isotope_detections : List IsotopeDetection
  mass_estimates : List MassEstimate
  analysis_summary : List AnalysisSummary
deriving DecidableEq

/-- The store with no rows. -/
def emptyStore : Store := ⟨[], [], [], [], []⟩

/-- The trigger function `validate_isotope_detection` (schema.md lines
109-121): on each insert or update, `NEW.relative_uncertainty` is set to
`NEW.count_uncertainty / NEW.detected_counts` when `NEW.detected_counts > 0`
and to `NULL` otherwise. -/
def validate_isotope_detection (r : IsotopeDetection) : IsotopeDetection :=
  if 0 < r.detected_counts then
    { r with relative_uncertainty := some (qdiv r.count_uncertainty r.detected_counts) }
  else
    { r with relative_uncertainty := none }

/-- The trigger function `validate_mass_estimate` (schema.md lines 129-141):
`NEW.relative_mass_uncertainty` is set to
`NEW.mass_uncertainty_g / NEW.estimated_mass_g` when
`NEW.estimated_mass_g > 0` and to `NULL` otherwise. -/
def validate_mass_estimate (m : MassEstimate) : MassEstimate :=
  if 0 < m.estimated_mass_g then
    { m with relative_mass_uncertainty := some (qdiv m.mass_uncertainty_g m.estimated_mass_g) }
  else
    { m with relative_mass_uncertainty := none }

/-- The `CHECK` constraints of `isotope_detections`:
`gamma_energy_kev > 0`, `detected_counts >= 0`, `count_uncertainty >= 0`,
`relative_uncertainty >= 0` (a NULL passes a CHECK). -/
def detectionChecks (r : IsotopeDetection) : Bool :=
  decide (0 < r.gamma_energy_kev) && decide (0 ≤ r.detected_counts) &&
    decide (0 ≤ r.count_uncertainty) &&
    (match r.relative_uncertainty with
      | none => true
      | some q => decide (0 ≤ q))

/-- The `CHECK` constraints of `mass_estimates`: `estimated_mass_g >= 0`,
`mass_uncertainty_g >= 0`, `relative_mass_uncertainty >= 0`. -/
def massChecks (m : MassEstimate) : Bool :=
  decide (0 ≤ m.estimated_mass_g) && decide (0 ≤ m.mass_uncertainty_g) &&
    (match m.relative_mass_uncertainty with
      | none => true
      | some q => decide (0 ≤ q))

/-- The detections of one session (rows of `isotope_detections` whose
`analysis_id` matches). -/
def session_detections (st : Store) (sid : ℕ) : List IsotopeDetection :=
  st.isotope_detections.filter (fun d => d.analysis_id = sid)

/-- The mass estimates of one session. -/
def session_mass_estimates (st : Store) (sid : ℕ) : List MassEstimate :=
  st.mass_estimates.filter (fun m => m.analysis_id = sid)

/-- Modelled from the spec: the dominant isotope of a session is the parent
isotope with the maximum estimated mass, ties broken by the
lexicographically smallest isotope name (spec section 4.2); no code in the
repository computes `analysis_summary.dominant_isotope`, only the external
producer. -/
def dominant_isotope_of (ms : List MassEstimate) : Option String :=
  (ms.foldl
    (fun best m =>
      match best with
      | none => some (m.parent_isotope, m.estimated_mass_g)
      | some (n, g) =>
          if g < m.estimated_mass_g ∨ (g = m.estimated_mass_g ∧ m.parent_isotope.data < n.data) then
            some (m.parent_isotope, m.estimated_mass_g)
          else best)
    none).map Prod.fst

/-- Modelled from the spec: `mass_distribution` maps each isotope to
`estimated_mass / total`, and is left empty (per-isotope undefined) when the
total mass is zero (spec section 4.2). -/
def mass_distribution_of (ms : List MassEstimate) (total : ℚ) : List (String × ℚ) :=
  if 0 < total then ms.map (fun m => (m.parent_isotope, qdiv m.estimated_mass_g total)) else []

/-- Modelled from the spec: the Session Summarizer (spec section 4.2).  The
repository stores `analysis_summary` as a table (schema.md lines 63-77) and
the code that fills it is the external analysis producer, outside the
repository; the spec defines its fields as aggregates of the session's
current detection and mass-estimate rows. -/
def mk_summary (sid : ℕ) (dets : List IsotopeDetection) (ms : List MassEstimate) :
    AnalysisSummary :=
  { analysis_id := sid
    total_estimated_mass_g := qsum (ms.map (fun m => m.estimated_mass_g))
    total_detections := dets.length
    unique_parent_isotopes := (ms.map (fun m => m.parent_isotope)).dedup.length
    dominant_isotope := dominant_isotope_of ms
    mass_distribution := mass_distribution_of ms (qsum (ms.map (fun m => m.estimated_mass_g))) }

/-- The summary of a session computed from the current store. -/
def compute_summary (st : Store) (sid : ℕ) : AnalysisSummary :=
  mk_summary sid (session_detections st sid) (session_mass_estimates st sid)

/-- Modelled from the spec: atomically replace the stored summary of a
session by the one recomputed from the session's current child rows (spec
section 4.2: recompute on every child write, all-or-nothing). -/
def recompute_summary (st : Store) (sid : ℕ) : Store :=
  { st with
      analysis_summary :=
        compute_summary st sid :: st.analysis_summary.filter (fun s => s.analysis_id ≠ sid) }

/-- Write-time rejection reasons (spec section 7): field-invariant
violations, duplicate natural keys, and a missing parent session (the
`REFERENCES` constraints). -/
inductive WriteError
  | validation
  | duplicateKey
  | missingSession
deriving DecidableEq

/-- Insert one `isotope_detections` row: the BEFORE trigger recomputes the
relative uncertainty, then the foreign-key, primary-key, `UNIQUE(analysis_id,
parent_isotope, daughter_isotope, gamma_energy_kev)` and `CHECK` constraints
are enforced; on success the session's summary is recomputed. -/
def insert_isotope_detection (st : Store) (r : IsotopeDetection) :
    Except WriteError Store :=
  let v := validate_isotope_detection r
  if st.analysis_sessions.all (fun s => s.id ≠ v.analysis_id) then .error .missingSession
  else if st.isotope_detections.any (fun d => d.id = v.id) then .error .duplicateKey
  else if st.isotope_detections.any (fun d =>
      d.analysis_id = v.analysis_id ∧ d.parent_isotope = v.parent_isotope ∧
        d.daughter_isotope = v.daughter_isotope ∧ d.gamma_energy_kev = v.gamma_energy_kev) then
    .error .duplicateKey
  else if detectionChecks v then
    .ok (recompute_summary { st with isotope_detections := v :: st.isotope_detections }
      v.analysis_id)
  else .error .validation

/-- Update the `isotope_detections` row with the given primary key, keeping
its `id` and `analysis_id`: the BEFORE trigger recomputes the relative
uncertainty from the caller-supplied fields, the constraints are re-checked,
and the session's summary is recomputed.  An update matching no row leaves
the store unchanged. -/
def update_isotope_detection (st : Store) (rid : ℕ) (newr : IsotopeDetection) :
    Except WriteError Store :=
  match st.isotope_detections.find? (fun d => d.id = rid) with
  | none => .ok st
  | some old =>
    let v := validate_isotope_detection { newr with id := old.id, analysis_id := old.analysis_id }
    if st.isotope_detections.any (fun d =>
        d.id ≠ rid ∧ d.analysis_id = v.analysis_id ∧ d.parent_isotope = v.parent_isotope ∧
          d.daughter_isotope = v.daughter_isotope ∧ d.gamma_energy_kev = v.gamma_energy_kev) then
      .error .duplicateKey
    else if detectionChecks v then
      .ok (recompute_summary
        { st with
            isotope_detections :=
              st.isotope_detections.map (fun d => if d.id = rid then v else d) }
        old.analysis_id)
    else .error .validation

/-- Insert one `mass_estimates` row: BEFORE trigger, foreign key, primary
key, `UNIQUE(analysis_id, parent_isotope)` and `CHECK` constraints, then
summary recomputation. -/
def insert_mass_estimate (st : Store) (m : MassEstimate) : Except WriteError Store :=
  let v := validate_mass_estimate m
  if st.analysis_sessions.all (fun s => s.id ≠ v.analysis_id) then .error .missingSession
  else if st.mass_estimates.any (fun e => e.id = v.id) then .error .duplicateKey
  else if st.mass_estimates.any (fun e =>
      e.analysis_id = v.analysis_id ∧ e.parent_isotope = v.parent_isotope) then
    .error .duplicateKey
  else if massChecks v then
    .ok (recompute_summary { st with mass_estimates := v :: st.mass_estimates } v.analysis_id)
  else .error .validation

/-- Update the `mass_estimates` row with the given primary key, keeping its
`id` and `analysis_id`; mirrors `update_isotope_detection`. -/
def update_mass_estimate (st : Store) (rid : ℕ) (newm : MassEstimate) :
    Except WriteError Store :=
  match st.mass_estimates.find? (fun e => e.id = rid) with
  | none => .ok st
  | some old =>
    let v := validate_mass_estimate { newm with id := old.id, analysis_id := old.analysis_id }
    if st.mass_estimates.any (fun e =>
        e.id ≠ rid ∧ e.analysis_id = v.analysis_id ∧ e.parent_isotope = v.parent_isotope) then
      .error .duplicateKey
    else if massChecks v then
      .ok (recompute_summary
        { st with
            mass_estimates := st.mass_estimates.map (fun e => if e.id = rid then v else e) }
        old.analysis_id)
    else .error .validation

/-- Create one `analysis_sessions` row, enforcing the primary key and the
`confidence_threshold` CHECK; per the spec (section 4.2, one summary per
session) its summary row is created at once. -/
def create_session (st : Store) (s : AnalysisSession) : Except WriteError Store :=
  if st.analysis_sessions.any (fun t => t.id = s.id) then .error .duplicateKey
  else if 0 < s.confidence_threshold ∧ s.confidence_threshold ≤ 1 then
    .ok (recompute_summary { st with analysis_sessions := s :: st.analysis_sessions } s.id)
  else .error .validation

/-- Insert one `analysis_plots` row: foreign key, primary key, and the
spec's inbound-interface rule that a region-of-interest plot carries isotope
and energy in its metadata (spec section 6). -/
def insert_plot (st : Store) (p : AnalysisPlot) : Except WriteError Store :=
  if st.analysis_sessions.all (fun s => s.id ≠ p.analysis_id) then .error .missingSession
  else if st.analysis_plots.any (fun q => q.id = p.id) then .error .duplicateKey
  else if p.plot_type = PlotType.roi_plot ∧
      (p.plot_metadata.parent_isotope = none ∨ p.plot_metadata.gamma_energy_kev = none) then
    .error .validation
  else .ok { st with analysis_plots := p :: st.analysis_plots }

/-- Delete one session together with everything it owns: every child table
of schema.md declares `REFERENCES analysis_sessions(id) ON DELETE CASCADE`. -/
def delete_session (st : Store) (sid : ℕ) : Store :=
  { analysis_sessions := st.analysis_sessions.filter (fun s => s.id ≠ sid)
    analysis_plots := st.analysis_plots.filter (fun p => p.analysis_id ≠ sid)
    isotope_detections := st.isotope_detections.filter (fun d => d.analysis_id ≠ sid)
    mass_estimates := st.mass_estimates.filter (fun m => m.analysis_id ≠ sid)
    analysis_summary := st.analysis_summary.filter (fun x => x.analysis_id ≠ sid) }

/-- The write operations of the engine's inbound interface (spec section 6)
plus session deletion. -/
inductive StoreOp
  | createSession (s : AnalysisSession)
  | insertDetection (r : IsotopeDetection)
  | updateDetection (rid : ℕ) (r : IsotopeDetection)
  | insertMass (m : MassEstimate)
  | updateMass (rid : ℕ) (m : MassEstimate)
  | insertPlot (p : AnalysisPlot)
  | deleteSession (sid : ℕ)

/-- Run one write operation. -/
def runOp (st : Store) : StoreOp → Except WriteError Store
  | .createSession s => create_session st s
  | .insertDetection r => insert_isotope_detection st r
  | .updateDetection rid r => update_isotope_detection st rid r
  | .insertMass m => insert_mass_estimate st m
  | .updateMass rid m => update_mass_estimate st rid m
  | .insertPlot p => insert_plot st p
  | .deleteSession sid => .ok (delete_session st sid)

/-- The store after a write: a rejected write commits nothing (spec section
7, batch-atomic rejection). -/
def stepStore (st : Store) (op : StoreOp) : Store :=
  match runOp st op with
  | .ok st' => st'
  | .error _ => st

/-- The observable states of the store: everything reachable from the empty
store by the write operations. -/
inductive Reachable : Store → Prop
  | empty : Reachable emptyStore
  | step {st : Store} (op : StoreOp) : Reachable st → Reachable (stepStore st op)

/-- A detection row whose relative uncertainty agrees with the trigger's
derivation rule. -/
def derivedDetection (d : IsotopeDetection) : Prop :=
  d.relative_uncertainty =
    if 0 < d.detected_counts then some (qdiv d.count_uncertainty d.detected_counts) else none

/-- A mass-estimate row whose relative uncertainty agrees with the trigger's
derivation rule. -/
def derivedMass (m : MassEstimate) : Prop :=
  m.relative_mass_uncertainty =
    if 0 < m.estimated_mass_g then some (qdiv m.mass_uncertainty_g m.estimated_mass_g) else none

/-- The store invariant: all derived fields agree with their source fields,
every stored summary equals the one recomputed from the live child rows, and
primary keys are unique. -/
def StoreInv (st : Store) : Prop :=
  (∀ d ∈ st.isotope_detections, derivedDetection d) ∧
    (∀ m ∈ st.mass_estimates, derivedMass m) ∧
    (∀ x ∈ st.analysis_summary, x = compute_summary st x.analysis_id) ∧
    (st.isotope_detections.map (fun d => d.id)).Nodup ∧
    (st.mass_estimates.map (fun m => m.id)).Nodup

/-- Row of the `latest_analyses` view (schema.md lines 151-168): session
core fields, LEFT JOINed summary fields (NULL when the session has no
summary row), and plot counts. -/
structure LatestRow where
  id : ℕ
  sample_filename : String
  analysis_timestamp : ℤ
  confidence_threshold : ℚ
  total_estimated_mass_g : Option ℚ
  total_detections : Option ℕ
  unique_parent_isotopes : Option ℕ
  dominant_isotope : Option String
  total_plots : ℕ
  roi_plots_count : ℕ
deriving DecidableEq

/-- Sort key of `latest_analyses`: `ORDER BY s.analysis_timestamp DESC`. -/
def latestKey (r : LatestRow) : ℤ := -r.analysis_timestamp

/-- The `latest_analyses` view: one row per session (the GROUP BY restores
one row per session), with `COUNT(p.id)` and the `roi_plot` sub-count. -/
def latest_analyses (st : Store) : List LatestRow :=
  List.insertionSort (keyLE latestKey)
    (st.analysis_sessions.map (fun s =>
      let sm := st.analysis_summary.find? (fun x => x.analysis_id = s.id)
      { id := s.id
        sample_filename := s.sample_filename
        analysis_timestamp := s.analysis_timestamp
        confidence_threshold := s.confidence_threshold
        total_estimated_mass_g := sm.map (fun x => x.total_estimated_mass_g)
        total_detections := sm.map (fun x => x.total_detections)
        unique_parent_isotopes := sm.map (fun x => x.unique_parent_isotopes)
        dominant_isotope := sm.bind (fun x => x.dominant_isotope)
        total_plots := (st.analysis_plots.filter (fun p => p.analysis_id = s.id)).length
        roi_plots_count := (st.analysis_plots.filter (fun p =>
          p.analysis_id = s.id ∧ p.plot_type = PlotType.roi_plot)).length }))

/-- Row of the `mass_comparison` view (schema.md lines 190-200). -/
structure MassCompRow where
  sample_filename : String
  analysis_timestamp : ℤ
  parent_isotope : String
  estimated_mass_g : ℚ
  relative_mass_uncertainty : Option ℚ
  mass_rank : ℕ
deriving DecidableEq

/-- The join `analysis_sessions JOIN mass_estimates` underlying
`mass_comparison`. -/
def massCompJoin (st : Store) : List (AnalysisSession × MassEstimate) :=
  st.analysis_sessions.flatMap (fun s =>
    (st.mass_estimates.filter (fun m => m.analysis_id = s.id)).map (fun m => (s, m)))

/-- `RANK() OVER (PARTITION BY m.parent_isotope ORDER BY m.estimated_mass_g
DESC)`: one more than the number of joined rows of the same isotope with
strictly larger mass (peers share a rank). -/
def massRankOf (joined : List (AnalysisSession × MassEstimate)) (m : MassEstimate) : ℕ :=
  1 + (joined.filter (fun q =>
    q.2.parent_isotope = m.parent_isotope ∧ m.estimated_mass_g < q.2.estimated_mass_g)).length

/-- Sort key of `mass_comparison`: `ORDER BY m.parent_isotope,
m.estimated_mass_g DESC`. -/
def massCompKey (r : MassCompRow) : Lex (List Char × ℚ) :=
  toLex (r.parent_isotope.data, -r.estimated_mass_g)

/-- The `mass_comparison` view. -/
def mass_comparison (st : Store) : List MassCompRow :=
  List.insertionSort (keyLE massCompKey)
    ((massCompJoin st).map (fun q =>
      { sample_filename := q.1.sample_filename
        analysis_timestamp := q.1.analysis_timestamp
        parent_isotope := q.2.parent_isotope
        estimated_mass_g := q.2.estimated_mass_g
        relative_mass_uncertainty := q.2.relative_mass_uncertainty
        mass_rank := massRankOf (massCompJoin st) q.2 }))

/-- Row of the `plot_catalog` view (schema.md lines 203-222): the payload
column is replaced by `LENGTH(p.plot_data_base64)`. -/
structure CatalogRow where
  sample_filename : String
  analysis_timestamp : ℤ
  plot_type : PlotType
  plot_title : String
  plot_metadata : PlotMetadata
  parent_isotope : Option String
  gamma_energy_kev : Option ℚ
  image_size_bytes : ℕ
deriving DecidableEq

/-- The join `analysis_sessions JOIN analysis_plots` underlying
`plot_catalog`. -/
def catalogJoin (st : Store) : List (AnalysisSession × AnalysisPlot) :=
  st.analysis_sessions.flatMap (fun s =>
    (st.analysis_plots.filter (fun p => p.analysis_id = s.id)).map (fun p => (s, p)))

/-- One `plot_catalog` row: the two CASE columns expose the ROI metadata for
`roi_plot` rows and NULL otherwise. -/
def catalogRow (s : AnalysisSession) (p : AnalysisPlot) : CatalogRow :=
  { sample_filename := s.sample_filename
    analysis_timestamp := s.analysis_timestamp
    plot_type := p.plot_type
    plot_title := p.plot_title
    plot_metadata := p.plot_metadata
    parent_isotope := if p.plot_type = PlotType.roi_plot then p.plot_metadata.parent_isotope else none
    gamma_energy_kev := if p.plot_type = PlotType.roi_plot then p.plot_metadata.gamma_energy_kev else none
    image_size_bytes := p.plot_data_base64.length }

/-- Key for an ascending `Option String` column: PostgreSQL sorts NULLs last
in ascending order. -/
def isoNullsLast (o : Option String) : Lex (ℕ × List Char) :=
  toLex (match o with
    | none => (1, [])
    | some s => (0, s.data))

/-- Sort key of `plot_catalog`: `ORDER BY s.analysis_timestamp DESC,
p.plot_type, parent_isotope` — the type is compared as TEXT. -/
def catalogKey (r : CatalogRow) : Lex (ℤ × Lex (List Char × Lex (ℕ × List Char))) :=
  toLex (-r.analysis_timestamp, toLex ((PlotType.text r.plot_type).data, isoNullsLast r.parent_isotope))

/-- The `plot_catalog` view. -/
def plot_catalog (st : Store) : List CatalogRow :=
  List.insertionSort (keyLE catalogKey)
    ((catalogJoin st).map (fun q => catalogRow q.1 q.2))

/-- Row returned by `get_analysis_plots` (schema.md lines 225-250): type,
title, the full base64 payload, and the metadata. -/
structure GapRow where
  plot_type : PlotType
  plot_title : String
  plot_data_base64 : String
  plot_metadata : PlotMetadata
deriving DecidableEq

/-- The CASE expression ordering plot types in `get_analysis_plots`:
spectrum_overview 1, mass_distribution 2, uncertainty_analysis 3,
roi_plot 4. -/
def plotCaseIndex : PlotType → ℕ
  | .spectrum_overview => 1
  | .mass_distribution => 2
  | .uncertainty_analysis => 3
  | .roi_plot => 4

/-- Key for an ascending `Option ℚ` column with `NULLS LAST`. -/
def energyNullsLast (o : Option ℚ) : Lex (ℕ × ℚ) :=
  toLex (match o with
    | none => (1, 0)
    | some e => (0, e))

/-- Sort key of `get_analysis_plots`: the CASE type order, then
`(plot_metadata->>'gamma_energy_kev')::REAL NULLS LAST`. -/
def gapKey (r : GapRow) : Lex (ℕ × Lex (ℕ × ℚ)) :=
  toLex (plotCaseIndex r.plot_type, energyNullsLast r.plot_metadata.gamma_energy_kev)

/-- The function `get_analysis_plots(analysis_session_id)`. -/
def get_analysis_plots (st : Store) (sid : ℕ) : List GapRow :=
  List.insertionSort (keyLE gapKey)
    ((st.analysis_plots.filter (fun p => p.analysis_id = sid)).map (fun p =>
      { plot_type := p.plot_type
        plot_title := p.plot_title
        plot_data_base64 := p.plot_data_base64
        plot_metadata := p.plot_metadata }))

/-- Row of the platform schema's `isotope_analyses` table (the second schema
variant), restricted to the columns its views read. -/
structure IsotopeAnalysisRow where
  id : ℕ
  timestamp : ℤ
  sample_name : String
  total_peaks_found : ℤ
  background_peaks : ℤ
  isotope_families_detected : List String
  status : String
deriving DecidableEq

/-- The completed analyses (`WHERE status = 'completed'`). -/
def completedAnalyses (rows : List IsotopeAnalysisRow) : List IsotopeAnalysisRow :=
  rows.filter (fun r => r.status = "completed")

/-- `DATE_TRUNC('day', timestamp)` on an epoch-seconds timestamp in the
canonical time zone: truncation to the start of the day. -/
def truncDay (t : ℤ) : ℤ := 86400 * Int.fdiv t 86400

/-- Row of the platform `analysis_summary` view (daily rollup). -/
structure DailyRow where
  analysis_date : ℤ
  total_analyses : ℕ
  avg_peaks : ℚ
  avg_background_peaks : ℚ
  unique_samples : ℕ
  all_isotopes_detected : List (Option String)
deriving DecidableEq

/-- The row set the daily rollup aggregates: each completed analysis LEFT
JOIN LATERAL `unnest(isotope_families_detected)` — one row per family, or a
single row with a NULL isotope when the array is empty. -/
def rollupFan (rows : List IsotopeAnalysisRow) : List (IsotopeAnalysisRow × Option String) :=
  (completedAnalyses rows).flatMap (fun r =>
    match r.isotope_families_detected with
    | [] => [(r, none)]
    | fs => fs.map (fun i => (r, some i)))

/-- Sort key of the daily rollup: `ORDER BY analysis_date DESC`. -/
def dailyKey (r : DailyRow) : ℤ := -r.analysis_date

/-- The platform `analysis_summary` view (lines 105-124 of the platform
schema): the lateral-join row set grouped by the calendar day of the
timestamp, with `COUNT(*)`, `AVG(total_peaks_found)`,
`AVG(background_peaks)`, `COUNT(DISTINCT sample_name)` and
`ARRAY_AGG(DISTINCT iso.isotope)` computed over each day's joined rows. -/
def analysis_summary_view (rows : List IsotopeAnalysisRow) : List DailyRow :=
  let fan := rollupFan rows
  List.insertionSort (keyLE dailyKey)
    (((fan.map (fun q => truncDay q.1.timestamp)).dedup).map (fun d =>
      let grp := fan.filter (fun q => truncDay q.1.timestamp = d)
      { analysis_date := d
        total_analyses := grp.length
        avg_peaks := Rat.divInt (grp.map (fun q => q.1.total_peaks_found)).sum (grp.length : ℤ)
        avg_background_peaks :=
          Rat.divInt (grp.map (fun q => q.1.background_peaks)).sum (grp.length : ℤ)
        unique_samples := (grp.map (fun q => q.1.sample_name)).dedup.length
        all_isotopes_detected := (grp.map (fun q => q.2)).dedup }))

/-- Row of the `isotope_frequency` view (lines 127-137 of the platform
schema). -/
structure FreqRow where
  isotope : String
  detection_count : ℕ
  unique_samples : ℕ
  detection_percentage : ℚ
deriving DecidableEq

/-- The row set `isotope_frequency` aggregates: each completed analysis
CROSS JOIN LATERAL `unnest(isotope_families_detected)` — a row per family,
and none for an empty array. -/
def freqPairs (rows : List IsotopeAnalysisRow) : List (String × IsotopeAnalysisRow) :=
  (completedAnalyses rows).flatMap (fun r =>
    r.isotope_families_detected.map (fun iso => (iso, r)))

/-- Sort key of `isotope_frequency`: `ORDER BY detection_count DESC`. -/
def freqKey (r : FreqRow) : ℤ := -(r.detection_count : ℤ)

/-- The `isotope_frequency` view: per isotope, `COUNT(*)`,
`COUNT(DISTINCT sample_name)` and `ROUND(COUNT(*)::numeric / (SELECT
COUNT(*) ... WHERE status = 'completed') * 100, 2)` over the lateral-join
rows. -/
def isotope_frequency (rows : List IsotopeAnalysisRow) : List FreqRow :=
  let pairs := freqPairs rows
  let total : ℤ := (completedAnalyses rows).length
  List.insertionSort (keyLE freqKey)
    (((pairs.map Prod.fst).dedup).map (fun iso =>
      let grp := pairs.filter (fun q => q.1 = iso)
      { isotope := iso
        detection_count := grp.length
        unique_samples := (grp.map (fun q => q.2.sample_name)).dedup.length
        detection_percentage := round2 (Rat.divInt (100 * (grp.length : ℤ)) total) }))

/-- A valid session used by the concrete examples below. -/
def exSession : AnalysisSession :=
  { id := 1, sample_filename := "sampleA.spe", background_filename := "bgA.spe"
    confidence_threshold := 1, analysis_timestamp := 300 }

/-- A second valid session. -/
def exSession2 : AnalysisSession :=
  { id := 2, sample_filename := "sampleB.spe", background_filename := "bgB.spe"
    confidence_threshold := 1, analysis_timestamp := 200 }

/-- A third valid session. -/
def exSession3 : AnalysisSession :=
  { id := 3, sample_filename := "sampleC.spe", background_filename := "bgC.spe"
    confidence_threshold := 1, analysis_timestamp := 100 }

/-- A detection insert payload with positive counts and a garbage
caller-supplied relative uncertainty (99), which the trigger must discard. -/
def c1Det : IsotopeDetection :=
  { id := 10, analysis_id := 1, parent_isotope := "Cs-137", daughter_isotope := "Ba-137m"
    gamma_energy_kev := 661, detected_counts := 4, count_uncertainty := 1
    relative_uncertainty := some 99 }

/-- A mass-estimate insert payload with zero estimated mass and a garbage
caller-supplied relative uncertainty, which the trigger must replace by NULL. -/
def c1Mass : MassEstimate :=
  { id := 20, analysis_id := 1, parent_isotope := "Cs-137", estimated_mass_g := 0
    mass_uncertainty_g := 3, relative_mass_uncertainty := some 7 }

/-- A store holding one session and nothing else. -/
def c1Base : Store := ⟨[exSession], [], [], [], []⟩

/-- The store after inserting `c1Det` into `c1Base`. -/
def c1DetStore : Store := stepStore c1Base (StoreOp.insertDetection c1Det)

/-- The store after inserting `c1Mass` into `c1Base`. -/
def c1MassStore : Store := stepStore c1Base (StoreOp.insertMass c1Mass)

/-- An update payload for the detection: zero counts, garbage relative
uncertainty. -/
def c1Det2 : IsotopeDetection :=
  { id := 99, analysis_id := 99, parent_isotope := "Cs-137", daughter_isotope := "Ba-137m"
    gamma_energy_kev := 661, detected_counts := 0, count_uncertainty := 5
    relative_uncertainty := some 42 }

/-- The store after updating detection 10 of `c1DetStore` with `c1Det2`. -/
def c1UpdDetStore : Store := stepStore c1DetStore (StoreOp.updateDetection 10 c1Det2)

/-- An update payload for the mass estimate: positive mass. -/
def c1Mass2 : MassEstimate :=
  { id := 99, analysis_id := 99, parent_isotope := "Cs-137", estimated_mass_g := 8
    mass_uncertainty_g := 2, relative_mass_uncertainty := some 42 }

/-- The store after updating mass estimate 20 of `c1MassStore` with
`c1Mass2`. -/
def c1UpdMassStore : Store := stepStore c1MassStore (StoreOp.updateMass 20 c1Mass2)

/-- A reachable store built by three write operations: create a session,
insert a mass estimate, insert a detection. -/
def wMass : MassEstimate :=
  { id := 20, analysis_id := 1, parent_isotope := "Cs-137", estimated_mass_g := 4
    mass_uncertainty_g := 1, relative_mass_uncertainty := none }

/-- Detection payload used in the reachable example store. -/
def wDet : IsotopeDetection :=
  { id := 10, analysis_id := 1, parent_isotope := "Cs-137", daughter_isotope := "Ba-137m"
    gamma_energy_kev := 661, detected_counts := 4, count_uncertainty := 1
    relative_uncertainty := none }

/-- The reachable example store (session 1 with one mass estimate and one
detection). -/
def wStore : Store :=
  stepStore (stepStore (stepStore emptyStore (StoreOp.createSession exSession))
    (StoreOp.insertMass wMass)) (StoreOp.insertDetection wDet)

/-- Mass estimates with masses 5, 5, 3 grams of the same isotope in three
sessions: the spec's competition-ranking example. -/
def c4St : Store :=
  ⟨[exSession, exSession2, exSession3], [], [],
    [ { id := 31, analysis_id := 1, parent_isotope := "Cs-137", estimated_mass_g := 5
        mass_uncertainty_g := 0, relative_mass_uncertainty := none }
    , { id := 32, analysis_id := 2, parent_isotope := "Cs-137", estimated_mass_g := 5
        mass_uncertainty_g := 0, relative_mass_uncertainty := none }
    , { id := 33, analysis_id := 3, parent_isotope := "Cs-137", estimated_mass_g := 3
        mass_uncertainty_g := 0, relative_mass_uncertainty := none } ], []⟩

/-- One of the rank-1 rows of `mass_comparison c4St` (mass 5). -/
def c4Row1 : MassCompRow :=
  { sample_filename := "sampleA.spe", analysis_timestamp := 300, parent_isotope := "Cs-137"
    estimated_mass_g := 5, relative_mass_uncertainty := none, mass_rank := 1 }

/-- The rank-3 row of `mass_comparison c4St` (mass 3). -/
def c4Row2 : MassCompRow :=
  { sample_filename := "sampleC.spe", analysis_timestamp := 100, parent_isotope := "Cs-137"
    estimated_mass_g := 3, relative_mass_uncertainty := none, mass_rank := 3 }

/-- Two plots of the same session and timestamp whose types are ordered
differently by the claimed fixed type order and by the view's textual
`ORDER BY p.plot_type`. -/
def c5St : Store :=
  ⟨[exSession],
    [ { id := 41, analysis_id := 1, plot_type := PlotType.spectrum_overview
        plot_title := "Spectrum", plot_data_base64 := "AAAA"
        plot_metadata := ⟨none, none⟩ }
    , { id := 42, analysis_id := 1, plot_type := PlotType.mass_distribution
        plot_title := "Masses", plot_data_base64 := "BBBBBB"
        plot_metadata := ⟨none, none⟩ } ], [], [], []⟩

/-- Platform rows: two completed analyses (one with two isotope families)
and one pending analysis. -/
def c6Rows : List IsotopeAnalysisRow :=
  [ { id := 1, timestamp := 0, sample_name := "s1", total_peaks_found := 10
      background_peaks := 2, isotope_families_detected := ["Cs-137"], status := "completed" }
  , { id := 2, timestamp := 86400, sample_name := "s2", total_peaks_found := 8
      background_peaks := 1, isotope_families_detected := ["Cs-137", "Co-60"]
      status := "completed" }
  , { id := 3, timestamp := 0, sample_name := "s3", total_peaks_found := 5
      background_peaks := 0, isotope_families_detected := ["K-40"], status := "pending" } ]

/-- Platform rows: a single completed analysis, on one calendar day, with
two isotope families. -/
def c3Rows : List IsotopeAnalysisRow :=
  [ { id := 1, timestamp := 3600, sample_name := "s1", total_peaks_found := 10
      background_peaks := 2, isotope_families_detected := ["Cs-137", "Co-60"]
      status := "completed" } ]

/-- A store with one session owning one mass estimate for Cs-137. -/
def c7St : Store :=
  ⟨[exSession], [], [],
    [ { id := 20, analysis_id := 1, parent_isotope := "Cs-137", estimated_mass_g := 5
        mass_uncertainty_g := 1, relative_mass_uncertainty := some (Rat.divInt 1 5) } ], []⟩

/-- A second mass estimate for the same (session, parent isotope) pair. -/
def c7Dup : MassEstimate :=
  { id := 21, analysis_id := 1, parent_isotope := "Cs-137", estimated_mass_g := 7
    mass_uncertainty_g := 1, relative_mass_uncertainty := none }

theorem rat_num_eq (a : ℚ) : (a.num : ℚ) = a * (a.den : ℚ) := by
  have hd : ((a.den : ℚ)) ≠ 0 := by
    exact_mod_cast a.den_ne_zero
  rw [← div_eq_iff hd]
  exact Rat.num_div_den a

theorem qdiv_eq_div (a b : ℚ) : qdiv a b = a / b := by
  rcases eq_or_ne b 0 with hb | hb
  · subst hb
    simp [qdiv]
  · have hd : ((a.den : ℚ)) ≠ 0 := by exact_mod_cast a.den_ne_zero
    have hbd : ((b.den : ℚ)) ≠ 0 := by exact_mod_cast b.den_ne_zero
    have hbn : ((b.num : ℚ)) ≠ 0 := by exact_mod_cast Rat.num_ne_zero.mpr hb
    rw [qdiv, Rat.divInt_eq_div]
    push_cast
    rw [div_eq_div_iff (mul_ne_zero hbn hd) hb, rat_num_eq a, rat_num_eq b]
    ring

theorem qadd_eq_add (a b : ℚ) : qadd a b = a + b := by
  have hd : ((a.den : ℚ)) ≠ 0 := by exact_mod_cast a.den_ne_zero
  have hbd : ((b.den : ℚ)) ≠ 0 := by exact_mod_cast b.den_ne_zero
  rw [qadd, Rat.divInt_eq_div]
  push_cast
  rw [div_eq_iff (mul_ne_zero hd hbd), rat_num_eq a, rat_num_eq b]
  ring

theorem qsum_eq_sum (l : List ℚ) : qsum l = l.sum := by
  induction l with
  | nil => rfl
  | cons a t ih =>
    simp only [qsum, List.foldr_cons, qadd_eq_add, List.sum_cons] at *
    rw [ih]

theorem round2_eq (q : ℚ) : round2 q = (⌊q * 100 + 1/2⌋ : ℚ) / 100 := by
  have hd : ((q.den : ℚ)) ≠ 0 := by exact_mod_cast q.den_ne_zero
  have harg : q * 100 + 1/2 = ((200 * q.num + (q.den : ℤ) : ℤ) : ℚ) / ((2 * q.den : ℕ) : ℚ) := by
    push_cast
    rw [eq_div_iff (mul_ne_zero two_ne_zero hd), rat_num_eq q]
    ring
  rw [round2, Rat.divInt_eq_div, harg, Rat.floor_intCast_div_natCast,
    Int.fdiv_eq_ediv _ (by positivity)]
  norm_num

theorem validate_isotope_detection_derived (r : IsotopeDetection) :
    derivedDetection (validate_isotope_detection r) := by
  by_cases h : 0 < r.detected_counts <;>
    simp [derivedDetection, validate_isotope_detection, h]

theorem validate_mass_estimate_derived (m : MassEstimate) :
    derivedMass (validate_mass_estimate m) := by
  by_cases h : 0 < m.estimated_mass_g <;>
    simp [derivedMass, validate_mass_estimate, h]

theorem derivedDetection_formula {d : IsotopeDetection} (h : derivedDetection d) :
    (0 < d.detected_counts →
        d.relative_uncertainty = some (d.count_uncertainty / d.detected_counts)) ∧
      (d.detected_counts = 0 → d.relative_uncertainty = none) := by
  constructor
  · intro hp
    rw [derivedDetection] at h
    rw [h, if_pos hp, qdiv_eq_div]
  · intro h0
    rw [derivedDetection] at h
    rw [h, if_neg]
    rw [h0]
    exact lt_irrefl 0

theorem derivedMass_formula {m : MassEstimate} (h : derivedMass m) :
    (0 < m.estimated_mass_g →
        m.relative_mass_uncertainty = some (m.mass_uncertainty_g / m.estimated_mass_g)) ∧
      (m.estimated_mass_g = 0 → m.relative_mass_uncertainty = none) := by
  constructor
  · intro hp
    rw [derivedMass] at h
    rw [h, if_pos hp, qdiv_eq_div]
  · intro h0
    rw [derivedMass] at h
    rw [h, if_neg]
    rw [h0]
    exact lt_irrefl 0

/-- C9: the derivation rule is idempotent and a pure function of the current
numerator and denominator: reapplying either trigger function to its own
output returns the same record bit for bit. -/
theorem C9_trigger_idempotent (r : IsotopeDetection) (m : MassEstimate) :
    validate_isotope_detection (validate_isotope_detection r) = validate_isotope_detection r ∧
      validate_mass_estimate (validate_mass_estimate m) = validate_mass_estimate m := by
  constructor
  · by_cases h : 0 < r.detected_counts <;> simp [validate_isotope_detection, h]
  · by_cases h : 0 < m.estimated_mass_g <;> simp [validate_mass_estimate, h]

/-- C1: on every successful insert or update of an isotope detection or a
mass estimate, each row of the resulting table is either an untouched old
row or stores relative uncertainty equal to the absolute uncertainty divided
by the magnitude when the magnitude is positive, and NULL — never 0 and
never an exception — when the magnitude is zero. -/
theorem C1_relative_uncertainty_derivation (st sti stu stj stv : Store)
    (r nr : IsotopeDetection) (m nm : MassEstimate) (rid mid : ℕ) :
    (insert_isotope_detection st r = .ok sti →
      ∀ d ∈ sti.isotope_detections, d ∈ st.isotope_detections ∨
        ((0 < d.detected_counts →
            d.relative_uncertainty = some (d.count_uncertainty / d.detected_counts)) ∧
          (d.detected_counts = 0 → d.relative_uncertainty = none))) ∧
    (update_isotope_detection st rid nr = .ok stu →
      ∀ d ∈ stu.isotope_detections, d ∈ st.isotope_detections ∨
        ((0 < d.detected_counts →
            d.relative_uncertainty = some (d.count_uncertainty / d.detected_counts)) ∧
          (d.detected_counts = 0 → d.relative_uncertainty = none))) ∧
    (insert_mass_estimate st m = .ok stj →
      ∀ e ∈ stj.mass_estimates, e ∈ st.mass_estimates ∨
        ((0 < e.estimated_mass_g →
            e.relative_mass_uncertainty = some (e.mass_uncertainty_g / e.estimated_mass_g)) ∧
          (e.estimated_mass_g = 0 → e.relative_mass_uncertainty = none))) ∧
    (update_mass_estimate st mid nm = .ok stv →
      ∀ e ∈ stv.mass_estimates, e ∈ st.mass_estimates ∨
        ((0 < e.estimated_mass_g →
            e.relative_mass_uncertainty = some (e.mass_uncertainty_g / e.estimated_mass_g)) ∧
          (e.estimated_mass_g = 0 → e.relative_mass_uncertainty = none))) := by
  refine ⟨?_, ?_, ?_, ?_⟩
  · intro h d hd
    simp only [insert_isotope_detection] at h
    split_ifs at h with h1 h2 h3 h4
    simp only [Except.ok.injEq] at h
    subst h
    simp only [recompute_summary] at hd
    rcases List.mem_cons.mp hd with hv | hold
    · subst hv
      exact Or.inr (derivedDetection_formula (validate_isotope_detection_derived r))
    · exact Or.inl hold
  · intro h d hd
    simp only [update_isotope_detection] at h
    rcases hf : st.isotope_detections.find? (fun d => d.id = rid) with _ | old
    · rw [hf] at h
      dsimp only at h
      simp only [Except.ok.injEq] at h
      subst h
      exact Or.inl hd
    · rw [hf] at h
      dsimp only at h
      split_ifs at h with h1 h2
      simp only [Except.ok.injEq] at h
      subst h
      simp only [recompute_summary] at hd
      rcases List.mem_map.mp hd with ⟨d0, hd0, rfl⟩
      by_cases hid : d0.id = rid
      · rw [if_pos hid]
        exact Or.inr (derivedDetection_formula (validate_isotope_detection_derived _))
      · rw [if_neg hid]
        exact Or.inl hd0
  · intro h e he
    simp only [insert_mass_estimate] at h
    split_ifs at h with h1 h2 h3 h4
    simp only [Except.ok.injEq] at h
    subst h
    simp only [recompute_summary] at he
    rcases List.mem_cons.mp he with hv | hold
    · subst hv
      exact Or.inr (derivedMass_formula (validate_mass_estimate_derived m))
    · exact Or.inl hold
  · intro h e he
    simp only [update_mass_estimate] at h
    rcases hf : st.mass_estimates.find? (fun e => e.id = mid) with _ | old
    · rw [hf] at h
      dsimp only at h
      simp only [Except.ok.injEq] at h
      subst h
      exact Or.inl he
    · rw [hf] at h
      dsimp only at h
      split_ifs at h with h1 h2
      simp only [Except.ok.injEq] at h
      subst h
      simp only [recompute_summary] at he
      rcases List.mem_map.mp he with ⟨e0, he0, rfl⟩
      by_cases hid : e0.id = mid
      · rw [if_pos hid]
        exact Or.inr (derivedMass_formula (validate_mass_estimate_derived _))
      · rw [if_neg hid]
        exact Or.inl he0

/-- C1 witness: inserting a detection with counts 4 and uncertainty 1 stores
1/4; updating it to zero counts stores NULL; inserting a zero-mass estimate
stores NULL; updating it to mass 8 and uncertainty 2 stores 2/8. -/
theorem C1_witness :
    (insert_isotope_detection c1Base c1Det = .ok c1DetStore ∧
      ∀ d ∈ c1DetStore.isotope_detections, d ∈ c1Base.isotope_detections ∨
        ((0 < d.detected_counts →
            d.relative_uncertainty = some (d.count_uncertainty / d.detected_counts)) ∧
          (d.detected_counts = 0 → d.relative_uncertainty = none))) ∧
    (update_isotope_detection c1DetStore 10 c1Det2 = .ok c1UpdDetStore ∧
      ∀ d ∈ c1UpdDetStore.isotope_detections, d ∈ c1DetStore.isotope_detections ∨
        ((0 < d.detected_counts →
            d.relative_uncertainty = some (d.count_uncertainty / d.detected_counts)) ∧
          (d.detected_counts = 0 → d.relative_uncertainty = none))) ∧
    (insert_mass_estimate c1Base c1Mass = .ok c1MassStore ∧
      ∀ e ∈ c1MassStore.mass_estimates, e ∈ c1Base.mass_estimates ∨
        ((0 < e.estimated_mass_g →
            e.relative_mass_uncertainty = some (e.mass_uncertainty_g / e.estimated_mass_g)) ∧
          (e.estimated_mass_g = 0 → e.relative_mass_uncertainty = none))) ∧
    (update_mass_estimate c1MassStore 20 c1Mass2 = .ok c1UpdMassStore ∧
      ∀ e ∈ c1UpdMassStore.mass_estimates, e ∈ c1MassStore.mass_estimates ∨
        ((0 < e.estimated_mass_g →
            e.relative_mass_uncertainty = some (e.mass_uncertainty_g / e.estimated_mass_g)) ∧
          (e.estimated_mass_g = 0 → e.relative_mass_uncertainty = none))) :=
  ⟨⟨by rfl,
    (C1_relative_uncertainty_derivation c1Base c1DetStore c1Base c1Base c1Base
      c1Det c1Det c1Mass c1Mass 10 20).1 (by rfl)⟩,
   ⟨by rfl,
    (C1_relative_uncertainty_derivation c1DetStore c1Base c1UpdDetStore c1Base c1Base
      c1Det c1Det2 c1Mass c1Mass 10 20).2.1 (by rfl)⟩,
   ⟨by rfl,
    (C1_relative_uncertainty_derivation c1Base c1Base c1Base c1MassStore c1Base
      c1Det c1Det c1Mass c1Mass 10 20).2.2.1 (by rfl)⟩,
   ⟨by rfl,
    (C1_relative_uncertainty_derivation c1MassStore c1Base c1Base c1Base c1UpdMassStore
      c1Det c1Det c1Mass c1Mass2 10 20).2.2.2 (by rfl)⟩⟩

/-- C7: inserting a second mass estimate for the same (session, parent
isotope) pair as an existing row is rejected, and the store — in particular
the original record — is unchanged by the failed insert. -/
theorem C7_duplicate_mass_estimate_rejected (st : Store) (m0 m : MassEstimate)
    (h0 : m0 ∈ st.mass_estimates) (hk : m.analysis_id = m0.analysis_id)
    (hp : m.parent_isotope = m0.parent_isotope) :
    (∃ e, insert_mass_estimate st m = .error e) ∧
      stepStore st (StoreOp.insertMass m) = st := by
  have hv : (validate_mass_estimate m).analysis_id = m.analysis_id ∧
      (validate_mass_estimate m).parent_isotope = m.parent_isotope := by
    unfold validate_mass_estimate
    split_ifs <;> exact ⟨rfl, rfl⟩
  have herr : ∃ e, insert_mass_estimate st m = .error e := by
    simp only [insert_mass_estimate]
    split_ifs with h1 h2 h3 h4
    · exact ⟨_, rfl⟩
    · exact ⟨_, rfl⟩
    · exact ⟨_, rfl⟩
    · exfalso
      apply h3
      rw [List.any_eq_true]
      exact ⟨m0, h0, by simp [hv.1, hv.2, hk, hp]⟩
    · exact ⟨_, rfl⟩
  obtain ⟨e, he⟩ := herr
  exact ⟨⟨e, he⟩, by simp [stepStore, runOp, he]⟩

/-- C7 witness: session 1 already holds a Cs-137 mass estimate; inserting a
second Cs-137 estimate for session 1 errors and leaves the store equal. -/
theorem C7_witness :
    ((⟨20, 1, "Cs-137", 5, 1, some (Rat.divInt 1 5)⟩ : MassEstimate) ∈ c7St.mass_estimates) ∧
      ((∃ e, insert_mass_estimate c7St c7Dup = .error e) ∧
        stepStore c7St (StoreOp.insertMass c7Dup) = c7St) :=
  ⟨by decide,
    C7_duplicate_mass_estimate_rejected c7St ⟨20, 1, "Cs-137", 5, 1, some (Rat.divInt 1 5)⟩
      c7Dup (by decide) (by decide) (by decide)⟩

/-- C8: deleting a session deletes every record it owns — its detections,
mass estimates, plots and its summary — and the session contributes to no
row of the cross-session `latest_analyses` view afterwards. -/
theorem C8_cascade_delete (st : Store) (sid : ℕ) :
    (∀ s ∈ (delete_session st sid).analysis_sessions, s.id ≠ sid) ∧
      (∀ p ∈ (delete_session st sid).analysis_plots, p.analysis_id ≠ sid) ∧
      (∀ d ∈ (delete_session st sid).isotope_detections, d.analysis_id ≠ sid) ∧
      (∀ m ∈ (delete_session st sid).mass_estimates, m.analysis_id ≠ sid) ∧
      (∀ x ∈ (delete_session st sid).analysis_summary, x.analysis_id ≠ sid) ∧
      (∀ row ∈ latest_analyses (delete_session st sid), row.id ≠ sid) := by
  refine ⟨?_, ?_, ?_, ?_, ?_, ?_⟩
  · intro s hs
    simpa using (List.mem_filter.mp hs).2
  · intro p hp
    simpa using (List.mem_filter.mp hp).2
  · intro d hd
    simpa using (List.mem_filter.mp hd).2
  · intro m hm
    simpa using (List.mem_filter.mp hm).2
  · intro x hx
    simpa using (List.mem_filter.mp hx).2
  · intro row hrow
    have hrow' := ((List.perm_insertionSort (keyLE latestKey) _).mem_iff).mp hrow
    rcases List.mem_map.mp hrow' with ⟨s, hs, rfl⟩
    simpa using (List.mem_filter.mp hs).2

theorem countP_or_disjoint {α : Type} (l : List α) (p q : α → Bool)
    (h : ∀ a ∈ l, ¬(p a = true ∧ q a = true)) :
    l.countP (fun a => p a || q a) = l.countP p + l.countP q := by
  induction l with
  | nil => rfl
  | cons a t ih =>
    have ht : ∀ b ∈ t, ¬(p b = true ∧ q b = true) := fun b hb => h b (List.mem_cons_of_mem a hb)
    by_cases hp : p a = true <;> by_cases hq : q a = true
    · exact absurd ⟨hp, hq⟩ (h a (List.mem_cons_self a t))
    · simp [List.countP_cons, hp, hq, ih ht]
      omega
    · simp [List.countP_cons, hp, hq, ih ht]
      omega
    · simp [List.countP_cons, hp, hq, ih ht]

theorem massComp_rank_char (st : Store) (r : MassCompRow) (hr : r ∈ mass_comparison st) :
    r.mass_rank = 1 + ((mass_comparison st).filter (fun x =>
      x.parent_isotope = r.parent_isotope ∧
        r.estimated_mass_g < x.estimated_mass_g)).length := by
  have hperm := List.perm_insertionSort (keyLE massCompKey)
    ((massCompJoin st).map (fun q =>
      { sample_filename := q.1.sample_filename
        analysis_timestamp := q.1.analysis_timestamp
        parent_isotope := q.2.parent_isotope
        estimated_mass_g := q.2.estimated_mass_g
        relative_mass_uncertainty := q.2.relative_mass_uncertainty
        mass_rank := massRankOf (massCompJoin st) q.2 } : _ → MassCompRow))
  have hr' := hperm.mem_iff.mp hr
  rcases List.mem_map.mp hr' with ⟨q, hq, rfl⟩
  have hl := ((hperm.filter (fun x : MassCompRow =>
    decide (x.parent_isotope = q.2.parent_isotope ∧
      q.2.estimated_mass_g < x.estimated_mass_g))).length_eq)
  show massRankOf (massCompJoin st) q.2 = _
  rw [mass_comparison, hl, massRankOf, ← List.countP_eq_length_filter,
    ← List.countP_eq_length_filter, List.countP_map]
  rfl

/-- C4: the mass-comparison view assigns standard competition ranks within
each isotope: the view is non-increasing in estimated mass inside an
isotope, two rows of one isotope with equal mass share a rank, and when no
mass lies strictly between two rows' masses, the lower row's rank is the
higher row's rank plus the number of rows tied at the higher mass. -/
theorem C4_mass_ranking (st : Store) (r1 r2 : MassCompRow)
    (h1 : r1 ∈ mass_comparison st) (h2 : r2 ∈ mass_comparison st)
    (hiso : r1.parent_isotope = r2.parent_isotope) :
    List.Pairwise (fun a b => a.parent_isotope = b.parent_isotope →
      b.estimated_mass_g ≤ a.estimated_mass_g) (mass_comparison st) ∧
    (r1.estimated_mass_g = r2.estimated_mass_g → r1.mass_rank = r2.mass_rank) ∧
    (r2.estimated_mass_g < r1.estimated_mass_g →
      (∀ x ∈ mass_comparison st, x.parent_isotope = r1.parent_isotope →
        ¬(r2.estimated_mass_g < x.estimated_mass_g ∧
          x.estimated_mass_g < r1.estimated_mass_g)) →
      r2.mass_rank = r1.mass_rank + ((mass_comparison st).filter (fun x =>
        x.parent_isotope = r1.parent_isotope ∧
          x.estimated_mass_g = r1.estimated_mass_g)).length) := by
  have hchar1 := massComp_rank_char st r1 h1
  have hchar2 := massComp_rank_char st r2 h2
  refine ⟨?_, ?_, ?_⟩
  · refine List.Pairwise.imp ?_ (List.sorted_insertionSort (keyLE massCompKey) _)
    intro a b hab hiso'
    rcases (Prod.Lex.le_iff (a.parent_isotope.data, -a.estimated_mass_g)
        (b.parent_isotope.data, -b.estimated_mass_g)).mp hab with hlt | ⟨_, hle⟩
    · rw [hiso'] at hlt
      exact absurd hlt (lt_irrefl _)
    · exact neg_le_neg_iff.mp hle
  · intro hmass
    rw [hchar1, hchar2, hiso, hmass]
  · intro hlt hgap
    have hsplit : (mass_comparison st).filter (fun x =>
        x.parent_isotope = r2.parent_isotope ∧ r2.estimated_mass_g < x.estimated_mass_g)
        = (mass_comparison st).filter (fun x =>
            decide (x.parent_isotope = r1.parent_isotope ∧
              r1.estimated_mass_g < x.estimated_mass_g) ||
            decide (x.parent_isotope = r1.parent_isotope ∧
              x.estimated_mass_g = r1.estimated_mass_g)) := by
      apply List.filter_congr
      intro x hx
      rw [← Bool.decide_or, decide_eq_decide]
      constructor
      · rintro ⟨hx1, hx2⟩
        have hx1' : x.parent_isotope = r1.parent_isotope := hx1.trans hiso.symm
        rcases lt_trichotomy x.estimated_mass_g r1.estimated_mass_g with hc | hc | hc
        · exact absurd ⟨hx2, hc⟩ (hgap x hx hx1')
        · exact Or.inr ⟨hx1', hc⟩
        · exact Or.inl ⟨hx1', hc⟩
      · rintro (⟨hx1, hx2⟩ | ⟨hx1, hx2⟩)
        · exact ⟨hx1.trans hiso, lt_trans hlt hx2⟩
        · refine ⟨hx1.trans hiso, ?_⟩
          rw [hx2]
          exact hlt
    have hdisj : ∀ x ∈ mass_comparison st,
        ¬((decide (x.parent_isotope = r1.parent_isotope ∧
            r1.estimated_mass_g < x.estimated_mass_g)) = true ∧
          (decide (x.parent_isotope = r1.parent_isotope ∧
            x.estimated_mass_g = r1.estimated_mass_g)) = true) := by
      rintro x _ ⟨ha, hb⟩
      rw [decide_eq_true_eq] at ha hb
      rw [hb.2] at ha
      exact absurd ha.2 (lt_irrefl _)
    have e1 : ((mass_comparison st).filter (fun x =>
        decide (x.parent_isotope = r1.parent_isotope ∧
          r1.estimated_mass_g < x.estimated_mass_g) ||
        decide (x.parent_isotope = r1.parent_isotope ∧
          x.estimated_mass_g = r1.estimated_mass_g))).length
        = ((mass_comparison st).filter (fun x =>
            x.parent_isotope = r1.parent_isotope ∧
              r1.estimated_mass_g < x.estimated_mass_g)).length +
          ((mass_comparison st).filter (fun x =>
            x.parent_isotope = r1.parent_isotope ∧
              x.estimated_mass_g = r1.estimated_mass_g)).length := by
      rw [← List.countP_eq_length_filter, ← List.countP_eq_length_filter,
        ← List.countP_eq_length_filter]
      exact countP_or_disjoint _ _ _ hdisj
    rw [hchar1, hchar2, hsplit, e1]
    omega

/-- C4 witness: masses 5, 5, 3 for Cs-137 across three sessions receive
ranks 1, 1, 3; applying the theorem to a rank-1 row and the rank-3 row gives
3 = 1 + 2. -/
theorem C4_witness :
    c4Row1 ∈ mass_comparison c4St ∧ c4Row2 ∈ mass_comparison c4St ∧
      (mass_comparison c4St).map (fun r => r.mass_rank) = [1, 1, 3] ∧
      (List.Pairwise (fun a b => a.parent_isotope = b.parent_isotope →
          b.estimated_mass_g ≤ a.estimated_mass_g) (mass_comparison c4St) ∧
        (c4Row1.estimated_mass_g = c4Row2.estimated_mass_g →
          c4Row1.mass_rank = c4Row2.mass_rank) ∧
        (c4Row2.estimated_mass_g < c4Row1.estimated_mass_g →
          (∀ x ∈ mass_comparison c4St, x.parent_isotope = c4Row1.parent_isotope →
            ¬(c4Row2.estimated_mass_g < x.estimated_mass_g ∧
              x.estimated_mass_g < c4Row1.estimated_mass_g)) →
          c4Row2.mass_rank = c4Row1.mass_rank + ((mass_comparison c4St).filter (fun x =>
            x.parent_isotope = c4Row1.parent_isotope ∧
              x.estimated_mass_g = c4Row1.estimated_mass_g)).length)) :=
  ⟨by decide, by decide, by decide,
    C4_mass_ranking c4St c4Row1 c4Row2 (by decide) (by decide) (by decide)⟩

/-- C5 counterexample: on a store with one session holding a
spectrum-overview plot and a mass-distribution plot, the catalog lists the
mass-distribution row first — `ORDER BY p.plot_type` compares the type as
text — although the claimed fixed type order puts the overview first, so the
catalog is not sorted with the fixed type order as primary key. -/
theorem C5_counterexample :
    (plot_catalog c5St).map (fun r => r.plot_type)
        = [PlotType.mass_distribution, PlotType.spectrum_overview] ∧
      plotCaseIndex PlotType.spectrum_overview < plotCaseIndex PlotType.mass_distribution ∧
      ¬ List.Sorted (keyLE (fun r : CatalogRow => plotCaseIndex r.plot_type))
        (plot_catalog c5St) := by
  decide

/-- C5 amended: the plot catalog returns one row per (session, plot) join
pair, exposing the payload's length rather than its content, and is sorted
by session timestamp descending, then by the plot type compared as text,
then by the ROI isotope with NULLs last (`catalogKey`); the fixed type order
with energy NULLs last (`gapKey`) is instead the ordering of the per-session
`get_analysis_plots` function. -/
theorem C5_plot_catalog_amended (st : Store) (sid : ℕ) :
    (plot_catalog st).Perm ((catalogJoin st).map (fun q => catalogRow q.1 q.2)) ∧
      (∀ row ∈ plot_catalog st, ∃ q, q ∈ catalogJoin st ∧ row = catalogRow q.1 q.2 ∧
        row.image_size_bytes = q.2.plot_data_base64.length) ∧
      List.Sorted (keyLE catalogKey) (plot_catalog st) ∧
      List.Sorted (keyLE gapKey) (get_analysis_plots st sid) := by
  refine ⟨List.perm_insertionSort _ _, ?_,
    List.sorted_insertionSort _ _, List.sorted_insertionSort _ _⟩
  intro row hrow
  have h' := (List.perm_insertionSort (keyLE catalogKey) _).mem_iff.mp hrow
  rcases List.mem_map.mp h' with ⟨q, hq, rfl⟩
  exact ⟨q, hq, rfl, rfl⟩

theorem fams_pairs_filter (fams : List String) (r : IsotopeAnalysisRow) (iso : String)
    (h : fams.Nodup) :
    ((fams.map (fun i => (i, r))).filter (fun q => q.1 = iso)).map Prod.snd
      = if iso ∈ fams then [r] else [] := by
  induction fams with
  | nil => simp
  | cons a t ih =>
    rcases List.nodup_cons.mp h with ⟨ha, ht⟩
    by_cases hai : a = iso
    · subst hai
      rw [List.map_cons, List.filter_cons_of_pos (by simp), List.map_cons,
        ih ht, if_neg ha, if_pos (List.mem_cons_self a t)]
    · rw [List.map_cons, List.filter_cons_of_neg (by simp [hai]), ih ht]
      simp [List.mem_cons, Ne.symm hai]

theorem pairs_filter_snd (l : List IsotopeAnalysisRow) (iso : String)
    (hnd : ∀ r ∈ l, r.isotope_families_detected.Nodup) :
    ((l.flatMap (fun r => r.isotope_families_detected.map (fun i => (i, r)))).filter
        (fun q => q.1 = iso)).map Prod.snd
      = l.filter (fun r => iso ∈ r.isotope_families_detected) := by
  induction l with
  | nil => rfl
  | cons a t ih =>
    rw [List.flatMap_cons, List.filter_append, List.map_append,
      fams_pairs_filter _ a iso (hnd a (List.mem_cons_self a t)),
      ih (fun r hr => hnd r (List.mem_cons_of_mem a hr))]
    by_cases hmem : iso ∈ a.isotope_families_detected
    · rw [if_pos hmem, List.filter_cons_of_pos (by simpa using hmem)]
      rfl
    · rw [if_neg hmem, List.filter_cons_of_neg (by simpa using hmem)]
      rfl

/-- C6: with no completed sessions the isotope-frequency view is the empty
result set — an explicit "no data" answer rather than a division-by-zero
error; with completed sessions it reports, per detected isotope, the number
of completed sessions detecting it, the number of distinct sample names
among them, and the percentage (rounded to two decimals) of all completed
sessions containing it.  The hypothesis says no analysis lists the same
isotope family twice. -/
theorem C6_isotope_frequency_no_data (rows : List IsotopeAnalysisRow)
    (hnd : ∀ r ∈ completedAnalyses rows, r.isotope_families_detected.Nodup) :
    (completedAnalyses rows = [] → isotope_frequency rows = []) ∧
      ∀ fr ∈ isotope_frequency rows,
        fr.detection_count = ((completedAnalyses rows).filter (fun r =>
          fr.isotope ∈ r.isotope_families_detected)).length ∧
        fr.unique_samples = (((completedAnalyses rows).filter (fun r =>
          fr.isotope ∈ r.isotope_families_detected)).map
            (fun r => r.sample_name)).dedup.length ∧
        fr.detection_percentage = round2 ((100 * (fr.detection_count : ℚ)) /
          ((completedAnalyses rows).length : ℚ)) := by
  constructor
  · intro h
    simp [isotope_frequency, freqPairs, h]
  · intro fr hfr
    have h' := (List.perm_insertionSort (keyLE freqKey) _).mem_iff.mp hfr
    rcases List.mem_map.mp h' with ⟨iso, hiso, rfl⟩
    have hkey := pairs_filter_snd (completedAnalyses rows) iso hnd
    have hcount : ((freqPairs rows).filter (fun q => q.1 = iso)).length
        = ((completedAnalyses rows).filter (fun r =>
            iso ∈ r.isotope_families_detected)).length := by
      rw [← hkey, List.length_map]
      rfl
    refine ⟨hcount, ?_, ?_⟩
    · show (((freqPairs rows).filter (fun q => q.1 = iso)).map
        (fun q => q.2.sample_name)).dedup.length = _
      rw [show ((freqPairs rows).filter (fun q => q.1 = iso)).map
            (fun q => q.2.sample_name)
          = (((freqPairs rows).filter (fun q => q.1 = iso)).map Prod.snd).map
            (fun r => r.sample_name) by rw [List.map_map]; rfl]
      rw [show ((freqPairs rows).filter (fun q => q.1 = iso)).map Prod.snd
          = (completedAnalyses rows).filter (fun r =>
              iso ∈ r.isotope_families_detected) from hkey]
    · show round2 (Rat.divInt (100 * (((freqPairs rows).filter
          (fun q => q.1 = iso)).length : ℤ)) (((completedAnalyses rows).length : ℕ) : ℤ)) = _
      rw [Rat.divInt_eq_div]
      push_cast
      rw [hcount]

/-- C3: on a store whose single completed analysis (one calendar day) lists
two isotope families, the daily-rollup view reports `total_analyses = 2`
although exactly one analysis was performed that day: the `COUNT(*)` counts
the rows produced by `LEFT JOIN LATERAL unnest(isotope_families_detected)`,
so a completed session is counted once per isotope family instead of exactly
once. -/
theorem C3_rollup_fanout :
    (analysis_summary_view c3Rows).map (fun r => (r.analysis_date, r.total_analyses))
        = [(0, 2)] ∧
      (completedAnalyses c3Rows).length = 1 := by
  decide

theorem filter_map_untouched {α : Type} (l : List α) (g : α → α) (p : α → Bool)
    (h : ∀ a ∈ l, (p a = true → g a = a) ∧ p (g a) = p a) :
    (l.map g).filter p = l.filter p := by
  induction l with
  | nil => rfl
  | cons a t ih =>
    have ha := h a (List.mem_cons_self a t)
    have ht := fun b hb => h b (List.mem_cons_of_mem a hb)
    rw [List.map_cons]
    by_cases hp : p a = true
    · rw [List.filter_cons_of_pos (by rw [ha.2, hp]), List.filter_cons_of_pos hp,
        ha.1 hp, ih ht]
    · rw [Bool.not_eq_true] at hp
      rw [List.filter_cons_of_neg (by simp [ha.2, hp]),
        List.filter_cons_of_neg (by simp [hp]), ih ht]

theorem filter_filter_imp {α : Type} (l : List α) (p q : α → Bool)
    (h : ∀ a, p a = true → q a = true) :
    (l.filter q).filter p = l.filter p := by
  rw [List.filter_filter]
  apply List.filter_congr
  intro a _
  by_cases hp : p a = true
  · rw [hp, h a hp]
    rfl
  · rw [Bool.not_eq_true] at hp
    rw [hp]
    simp

theorem compute_summary_congr {st st' : Store} {sid : ℕ}
    (hdets : session_detections st' sid = session_detections st sid)
    (hms : session_mass_estimates st' sid = session_mass_estimates st sid) :
    compute_summary st' sid = compute_summary st sid := by
  rw [compute_summary, compute_summary, hdets, hms]

theorem validate_isotope_detection_keeps (r : IsotopeDetection) :
    (validate_isotope_detection r).id = r.id ∧
      (validate_isotope_detection r).analysis_id = r.analysis_id := by
  unfold validate_isotope_detection
  split_ifs <;> exact ⟨rfl, rfl⟩

theorem validate_mass_estimate_keeps (m : MassEstimate) :
    (validate_mass_estimate m).id = m.id ∧
      (validate_mass_estimate m).analysis_id = m.analysis_id := by
  unfold validate_mass_estimate
  split_ifs <;> exact ⟨rfl, rfl⟩

theorem storeInv_recompute {st : Store} (sid : ℕ)
    (hd : ∀ d ∈ st.isotope_detections, derivedDetection d)
    (hm : ∀ m ∈ st.mass_estimates, derivedMass m)
    (hs : ∀ x ∈ st.analysis_summary, x.analysis_id ≠ sid →
      x = compute_summary st x.analysis_id)
    (hnd : (st.isotope_detections.map (fun d => d.id)).Nodup)
    (hnm : (st.mass_estimates.map (fun m => m.id)).Nodup) :
    StoreInv (recompute_summary st sid) := by
  refine ⟨hd, hm, ?_, hnd, hnm⟩
  intro x hx
  simp only [recompute_summary] at hx
  rcases List.mem_cons.mp hx with hx | hx
  · subst hx
    rfl
  · have hxf := List.mem_filter.mp hx
    have hne : x.analysis_id ≠ sid := by simpa using hxf.2
    exact hs x hxf.1 hne

theorem storeInv_insert_detection {st st' : Store} {r : IsotopeDetection}
    (hInv : StoreInv st) (h : insert_isotope_detection st r = .ok st') : StoreInv st' := by
  obtain ⟨hd, hm, hs, hnd, hnm⟩ := hInv
  simp only [insert_isotope_detection] at h
  split_ifs at h with h1 h2 h3 h4
  simp only [Except.ok.injEq] at h
  subst h
  apply storeInv_recompute
  · intro d hdm
    rcases List.mem_cons.mp hdm with hdm | hdm
    · subst hdm
      exact validate_isotope_detection_derived r
    · exact hd d hdm
  · exact hm
  · intro x hx hne
    have hx' := hs x hx
    have hcs : compute_summary
        { st with isotope_detections :=
            validate_isotope_detection r :: st.isotope_detections } x.analysis_id
        = compute_summary st x.analysis_id := by
      apply compute_summary_congr
      · show List.filter _ (validate_isotope_detection r :: st.isotope_detections) = _
        rw [List.filter_cons_of_neg (by
          simp only [decide_eq_true_eq]
          exact fun heq => hne heq.symm)]
        rfl
      · rfl
    rw [hcs]
    exact hx'
  · show ((validate_isotope_detection r :: st.isotope_detections).map (fun d => d.id)).Nodup
    rw [List.map_cons]
    refine List.nodup_cons.mpr ⟨?_, hnd⟩
    intro hmem
    rcases List.mem_map.mp hmem with ⟨d, hdm, hid⟩
    exact h2 (List.any_eq_true.mpr ⟨d, hdm, by simp [hid]⟩)
  · exact hnm

theorem storeInv_insert_mass {st st' : Store} {m : MassEstimate}
    (hInv : StoreInv st) (h : insert_mass_estimate st m = .ok st') : StoreInv st' := by
  obtain ⟨hd, hm, hs, hnd, hnm⟩ := hInv
  simp only [insert_mass_estimate] at h
  split_ifs at h with h1 h2 h3 h4
  simp only [Except.ok.injEq] at h
  subst h
  apply storeInv_recompute
  · exact hd
  · intro e hem
    rcases List.mem_cons.mp hem with hem | hem
    · subst hem
      exact validate_mass_estimate_derived m
    · exact hm e hem
  · intro x hx hne
    have hx' := hs x hx
    have hcs : compute_summary
        { st with mass_estimates := validate_mass_estimate m :: st.mass_estimates }
          x.analysis_id
        = compute_summary st x.analysis_id := by
      apply compute_summary_congr
      · rfl
      · show List.filter _ (validate_mass_estimate m :: st.mass_estimates) = _
        rw [List.filter_cons_of_neg (by
          simp only [decide_eq_true_eq]
          exact fun heq => hne heq.symm)]
        rfl
    rw [hcs]
    exact hx'
  · exact hnd
  · show ((validate_mass_estimate m :: st.mass_estimates).map (fun e => e.id)).Nodup
    rw [List.map_cons]
    refine List.nodup_cons.mpr ⟨?_, hnm⟩
    intro hmem
    rcases List.mem_map.mp hmem with ⟨e, hem, hid⟩
    exact h2 (List.any_eq_true.mpr ⟨e, hem, by simp [hid]⟩)

theorem storeInv_create_session {st st' : Store} {s : AnalysisSession}
    (hInv : StoreInv st) (h : create_session st s = .ok st') : StoreInv st' := by
  obtain ⟨hd, hm, hs, hnd, hnm⟩ := hInv
  simp only [create_session] at h
  split_ifs at h with h1 h2
  simp only [Except.ok.injEq] at h
  subst h
  apply storeInv_recompute
  · exact hd
  · exact hm
  · intro x hx _
    exact hs x hx
  · exact hnd
  · exact hnm

theorem storeInv_insert_plot {st st' : Store} {p : AnalysisPlot}
    (hInv : StoreInv st) (h : insert_plot st p = .ok st') : StoreInv st' := by
  obtain ⟨hd, hm, hs, hnd, hnm⟩ := hInv
  simp only [insert_plot] at h
  split_ifs at h with h1 h2 h3
  simp only [Except.ok.injEq] at h
  subst h
  exact ⟨hd, hm, fun x hx => hs x hx, hnd, hnm⟩

theorem storeInv_delete_session {st : Store} (sid : ℕ) (hInv : StoreInv st) :
    StoreInv (delete_session st sid) := by
  obtain ⟨hd, hm, hs, hnd, hnm⟩ := hInv
  refine ⟨?_, ?_, ?_, ?_, ?_⟩
  · intro d hdm
    exact hd d (List.mem_filter.mp hdm).1
  · intro m hmm
    exact hm m (List.mem_filter.mp hmm).1
  · intro x hx
    have hxf := List.mem_filter.mp hx
    have hne : x.analysis_id ≠ sid := by simpa using hxf.2
    have hx' := hs x hxf.1
    have hcs : compute_summary (delete_session st sid) x.analysis_id
        = compute_summary st x.analysis_id := by
      apply compute_summary_congr
      · show List.filter _ (st.isotope_detections.filter _) = _
        refine filter_filter_imp _ _ _ (fun a ha => ?_)
        simp only [decide_eq_true_eq] at ha ⊢
        rw [ha]
        exact hne
      · show List.filter _ (st.mass_estimates.filter _) = _
        refine filter_filter_imp _ _ _ (fun a ha => ?_)
        simp only [decide_eq_true_eq] at ha ⊢
        rw [ha]
        exact hne
    rw [hcs]
    exact hx'
  · exact List.Nodup.sublist (List.Sublist.map _ (List.filter_sublist _)) hnd
  · exact List.Nodup.sublist (List.Sublist.map _ (List.filter_sublist _)) hnm

theorem storeInv_update_detection {st st' : Store} {rid : ℕ} {nr : IsotopeDetection}
    (hInv : StoreInv st) (h : update_isotope_detection st rid nr = .ok st') : StoreInv st' := by
  obtain ⟨hd, hm, hs, hnd, hnm⟩ := hInv
  simp only [update_isotope_detection] at h
  rcases hf : st.isotope_detections.find? (fun d => d.id = rid) with _ | old
  · rw [hf] at h
    dsimp only at h
    simp only [Except.ok.injEq] at h
    subst h
    exact ⟨hd, hm, hs, hnd, hnm⟩
  · rw [hf] at h
    dsimp only at h
    split_ifs at h with h1 h2
    simp only [Except.ok.injEq] at h
    subst h
    have hold_mem := List.mem_of_find?_eq_some hf
    have hold_id : old.id = rid := by simpa using List.find?_some hf
    have hva : (validate_isotope_detection
        { nr with id := old.id, analysis_id := old.analysis_id }).analysis_id
        = old.analysis_id := (validate_isotope_detection_keeps _).2
    have hvi : (validate_isotope_detection
        { nr with id := old.id, analysis_id := old.analysis_id }).id
        = old.id := (validate_isotope_detection_keeps _).1
    apply storeInv_recompute
    · intro d hdm
      rcases List.mem_map.mp hdm with ⟨d0, hd0, rfl⟩
      by_cases hdi : d0.id = rid
      · rw [if_pos hdi]
        exact validate_isotope_detection_derived _
      · rw [if_neg hdi]
        exact hd d0 hd0
    · exact hm
    · intro x hx hne
      have hx' := hs x hx
      have hcs : compute_summary
          { st with isotope_detections := st.isotope_detections.map (fun d =>
              if d.id = rid then
                validate_isotope_detection
                  { nr with id := old.id, analysis_id := old.analysis_id }
              else d) } x.analysis_id
          = compute_summary st x.analysis_id := by
        apply compute_summary_congr
        · show List.filter _ (st.isotope_detections.map _) = _
          refine filter_map_untouched _ _ _ (fun a hamem => ?_)
          by_cases hai : a.id = rid
          · have haold : a = old :=
              List.inj_on_of_nodup_map hnd hamem hold_mem (by rw [hai, hold_id])
            constructor
            · intro hpa
              exfalso
              rw [decide_eq_true_eq] at hpa
              rw [haold] at hpa
              exact hne hpa.symm
            · rw [if_pos hai, haold]
              simp only [hva]
          · constructor
            · intro _
              rw [if_neg hai]
            · rw [if_neg hai]
        · rfl
      rw [hcs]
      exact hx'
    · dsimp only
      rw [List.map_map]
      have hpt : ∀ a ∈ st.isotope_detections,
          ((fun d : IsotopeDetection => d.id) ∘ (fun d =>
            if d.id = rid then
              validate_isotope_detection
                { nr with id := old.id, analysis_id := old.analysis_id }
            else d)) a = a.id := by
        intro a _
        by_cases hai : a.id = rid
        · simp only [Function.comp_apply, if_pos hai, hvi]
          rw [hold_id, hai]
        · simp only [Function.comp_apply, if_neg hai]
      rw [List.map_congr_left hpt]
      exact hnd
    · exact hnm

theorem storeInv_update_mass {st st' : Store} {mid : ℕ} {nm : MassEstimate}
    (hInv : StoreInv st) (h : update_mass_estimate st mid nm = .ok st') : StoreInv st' := by
  obtain ⟨hd, hm, hs, hnd, hnm⟩ := hInv
  simp only [update_mass_estimate] at h
  rcases hf : st.mass_estimates.find? (fun e => e.id = mid) with _ | old
  · rw [hf] at h
    dsimp only at h
    simp only [Except.ok.injEq] at h
    subst h
    exact ⟨hd, hm, hs, hnd, hnm⟩
  · rw [hf] at h
    dsimp only at h
    split_ifs at h with h1 h2
    simp only [Except.ok.injEq] at h
    subst h
    have hold_mem := List.mem_of_find?_eq_some hf
    have hold_id : old.id = mid := by simpa using List.find?_some hf
    have hva : (validate_mass_estimate
        { nm with id := old.id, analysis_id := old.analysis_id }).analysis_id
        = old.analysis_id := (validate_mass_estimate_keeps _).2
    have hvi : (validate_mass_estimate
        { nm with id := old.id, analysis_id := old.analysis_id }).id
        = old.id := (validate_mass_estimate_keeps _).1
    apply storeInv_recompute
    · exact hd
    · intro e hem
      rcases List.mem_map.mp hem with ⟨e0, he0, rfl⟩
      by_cases hei : e0.id = mid
      · rw [if_pos hei]
        exact validate_mass_estimate_derived _
      · rw [if_neg hei]
        exact hm e0 he0
    · intro x hx hne
      have hx' := hs x hx
      have hcs : compute_summary
          { st with mass_estimates := st.mass_estimates.map (fun e =>
              if e.id = mid then
                validate_mass_estimate { nm with id := old.id, analysis_id := old.analysis_id }
              else e) } x.analysis_id
          = compute_summary st x.analysis_id := by
        apply compute_summary_congr
        · rfl
        · show List.filter _ (st.mass_estimates.map _) = _
          refine filter_map_untouched _ _ _ (fun a hamem => ?_)
          by_cases hai : a.id = mid
          · have haold : a = old :=
              List.inj_on_of_nodup_map hnm hamem hold_mem (by rw [hai, hold_id])
            constructor
            · intro hpa
              exfalso
              rw [decide_eq_true_eq] at hpa
              rw [haold] at hpa
              exact hne hpa.symm
            · rw [if_pos hai, haold]
              simp only [hva]
          · constructor
            · intro _
              rw [if_neg hai]
            · rw [if_neg hai]
      rw [hcs]
      exact hx'
    · exact hnd
    · dsimp only
      rw [List.map_map]
      have hpt : ∀ a ∈ st.mass_estimates,
          ((fun e : MassEstimate => e.id) ∘ (fun e =>
            if e.id = mid then
              validate_mass_estimate { nm with id := old.id, analysis_id := old.analysis_id }
            else e)) a = a.id := by
        intro a _
        by_cases hai : a.id = mid
        · simp only [Function.comp_apply, if_pos hai, hvi]
          rw [hold_id, hai]
        · simp only [Function.comp_apply, if_neg hai]
      rw [List.map_congr_left hpt]
      exact hnm

theorem storeInv_step (st : Store) (op : StoreOp) (hInv : StoreInv st) :
    StoreInv (stepStore st op) := by
  cases hrun : runOp st op with
  | error e =>
    simp only [stepStore, hrun]
    exact hInv
  | ok st1 =>
    simp only [stepStore, hrun]
    cases op with
    | createSession s => exact storeInv_create_session hInv hrun
    | insertDetection r => exact storeInv_insert_detection hInv hrun
    | updateDetection rid r => exact storeInv_update_detection hInv hrun
    | insertMass m => exact storeInv_insert_mass hInv hrun
    | updateMass rid m => exact storeInv_update_mass hInv hrun
    | insertPlot p => exact storeInv_insert_plot hInv hrun
    | deleteSession sid =>
      have : st1 = delete_session st sid := by
        simpa [runOp] using hrun.symm
      rw [this]
      exact storeInv_delete_session sid hInv

theorem reachable_storeInv {st : Store} (h : Reachable st) : StoreInv st := by
  induction h with
  | empty =>
    refine ⟨?_, ?_, ?_, ?_, ?_⟩ <;> simp [emptyStore]
  | step op hst ih => exact storeInv_step _ op ih

/-- C10: in every reachable state of the store, every stored detection and
mass-estimate row carries the relative uncertainty derived from its own
current absolute uncertainty and magnitude, so a caller-supplied relative
uncertainty can never be committed: the triggers overwrite it on every
insert and update. -/
theorem C10_derived_fields_invariant (st : Store) (h : Reachable st) :
    (∀ d ∈ st.isotope_detections,
      (0 < d.detected_counts →
        d.relative_uncertainty = some (d.count_uncertainty / d.detected_counts)) ∧
      (d.detected_counts = 0 → d.relative_uncertainty = none)) ∧
    (∀ m ∈ st.mass_estimates,
      (0 < m.estimated_mass_g →
        m.relative_mass_uncertainty = some (m.mass_uncertainty_g / m.estimated_mass_g)) ∧
      (m.estimated_mass_g = 0 → m.relative_mass_uncertainty = none)) := by
  obtain ⟨hd, hm, _, _, _⟩ := reachable_storeInv h
  exact ⟨fun d hdm => derivedDetection_formula (hd d hdm),
    fun m hmm => derivedMass_formula (hm m hmm)⟩

/-- C10 witness: in the reachable store built by creating a session,
inserting a mass estimate and inserting a detection, every stored row obeys
the derivation invariant. -/
theorem C10_witness :
    (∀ d ∈ wStore.isotope_detections,
      (0 < d.detected_counts →
        d.relative_uncertainty = some (d.count_uncertainty / d.detected_counts)) ∧
      (d.detected_counts = 0 → d.relative_uncertainty = none)) ∧
    (∀ m ∈ wStore.mass_estimates,
      (0 < m.estimated_mass_g →
        m.relative_mass_uncertainty = some (m.mass_uncertainty_g / m.estimated_mass_g)) ∧
      (m.estimated_mass_g = 0 → m.relative_mass_uncertainty = none)) :=
  C10_derived_fields_invariant wStore
    (Reachable.step (StoreOp.insertDetection wDet)
      (Reachable.step (StoreOp.insertMass wMass)
        (Reachable.step (StoreOp.createSession exSession) Reachable.empty)))

/-- C2: in every reachable state, each stored session summary's total
estimated mass equals the sum of that session's current mass estimates (0
when it has none), and recomputing a summary twice without intervening
writes gives the same store as recomputing it once. -/
theorem C2_summary_total_mass (st : Store) (h : Reachable st) (sid : ℕ) :
    (∀ x ∈ st.analysis_summary,
      x.total_estimated_mass_g
        = ((session_mass_estimates st x.analysis_id).map
            (fun m => m.estimated_mass_g)).sum) ∧
      recompute_summary (recompute_summary st sid) sid = recompute_summary st sid := by
  obtain ⟨_, _, hs, _, _⟩ := reachable_storeInv h
  constructor
  · intro x hx
    calc x.total_estimated_mass_g
        = (compute_summary st x.analysis_id).total_estimated_mass_g := by
          rw [← hs x hx]
      _ = qsum ((session_mass_estimates st x.analysis_id).map
            (fun m => m.estimated_mass_g)) := rfl
      _ = _ := qsum_eq_sum _
  · simp only [recompute_summary]
    congr 1
    rw [List.filter_cons_of_neg (by simp [compute_summary, mk_summary])]
    refine congrArg₂ List.cons rfl ?_
    exact filter_filter_imp _ _ _ (fun a ha => ha)

/-- C2 witness: in the reachable store with one session holding a 4 g mass
estimate, the stored summary total equals the sum of the session's mass
estimates, and recomputing session 1's summary twice equals recomputing it
once. -/
theorem C2_witness :
    (∀ x ∈ wStore.analysis_summary,
      x.total_estimated_mass_g
        = ((session_mass_estimates wStore x.analysis_id).map
            (fun m => m.estimated_mass_g)).sum) ∧
      recompute_summary (recompute_summary wStore 1) 1 = recompute_summary wStore 1 :=
  C2_summary_total_mass wStore
    (Reachable.step (StoreOp.insertDetection wDet)
      (Reachable.step (StoreOp.insertMass wMass)
        (Reachable.step (StoreOp.createSession exSession) Reachable.empty))) 1

/-- C6 witness: two completed analyses (samples s1, s2) with family lists
[Cs-137] and [Cs-137, Co-60] and one pending analysis; every family list is
duplicate-free, so frequencies count sessions, and an empty table gives the
empty result. -/
theorem C6_witness :
    (∀ r ∈ completedAnalyses c6Rows, r.isotope_families_detected.Nodup) ∧
      ((completedAnalyses c6Rows = [] → isotope_frequency c6Rows = []) ∧
        ∀ fr ∈ isotope_frequency c6Rows,
          fr.detection_count = ((completedAnalyses c6Rows).filter (fun r =>
            fr.isotope ∈ r.isotope_families_detected)).length ∧
          fr.unique_samples = (((completedAnalyses c6Rows).filter (fun r =>
            fr.isotope ∈ r.isotope_families_detected)).map
              (fun r => r.sample_name)).dedup.length ∧
          fr.detection_percentage = round2 ((100 * (fr.detection_count : ℚ)) /
            ((completedAnalyses c6Rows).length : ℚ))) ∧
      isotope_frequency ([] : List IsotopeAnalysisRow) = [] :=
  ⟨by decide,
    C6_isotope_frequency_no_data c6Rows (by decide),
    (C6_isotope_frequency_no_data [] (by decide)).1 rfl⟩
